import Mathlib

/-!
Verification of the line lexer, redirection-descriptor parser, output router
and read-eval loop of a small interactive shell written in Rust
(src/main.rs, src/redirection.rs).

The Rust code is shallowly embedded: `char` iterators become `List Char`,
owned strings become `String`, `panic!` / `.unwrap()` failures become the
`panicked` constructor of `PanicOr`, and the process-level effects of one
iteration of the read-eval loop (writes to the inherited streams, opening
and writing the redirection file, exiting) become an explicit event trace.
-/

namespace Shell

/-- The double-quote character, named to keep character literals simple. -/
def dquoteChar : Char := Char.ofNat 34

/-- The single-quote character. -/
def squoteChar : Char := Char.ofNat 39

/-- The backslash character. -/
def backslashChar : Char := Char.ofNat 92

/-- Result of running embedded Rust code that may `panic!` (or `.unwrap()` an
error): either the value, or `panicked`, which aborts the whole process. -/
inductive PanicOr (α : Type) where
  | panicked : PanicOr α
  | ok (val : α) : PanicOr α
deriving DecidableEq

/-- `RedirectionMode` from src/redirection.rs. -/
inductive RedirectionMode where
  | write
  | append
deriving DecidableEq

/-- `RedirectionSource` from src/redirection.rs. -/
inductive RedirectionSource where
  | stdout
  | stderr
  | both
deriving DecidableEq

/-- `Redirection` from src/redirection.rs. -/
structure Redirection where
  source : RedirectionSource
  mode : RedirectionMode
  target : String
deriving DecidableEq

/-- Numeric value of a run of ASCII digits, as `u32::from_str` computes it
(most significant first; the overflow check is made by the caller). -/
def digitsToNat (ds : List Char) : Nat :=
  ds.foldl (fun a c => a * 10 + (c.toNat - 48)) 0

/-- Step 4 of `Redirection::parse`: `chars.skip_while(is_whitespace).take_while(!is_whitespace)`.
Lean's `Char.isWhitespace` (space, tab, CR, LF) stands in for Rust's Unicode
`char::is_whitespace`; the two differ only on exotic whitespace characters. -/
def targetOf (cs : List Char) : String :=
  String.mk ((cs.dropWhile Char.isWhitespace).takeWhile (fun c => !c.isWhitespace))

/-- Step 3 and 4 of `Redirection::parse`, on the characters remaining after the
source prefix.  `chars.by_ref().take_while(|x| *x == '>').count()` consumes the
run of `>` characters AND the first character failing the predicate (Rust's
`take_while` pulls it from the underlying iterator and discards it), hence the
`drop (gtRun.length + 1)`. -/
def parseModeTarget (source : RedirectionSource) (cs : List Char) : Option Redirection :=
  let gtRun := cs.takeWhile (fun c => c == '>')
  let rest := cs.drop (gtRun.length + 1)
  if gtRun.length = 1 then some ⟨source, .write, targetOf rest⟩
  else if gtRun.length = 2 then some ⟨source, .append, targetOf rest⟩
  else none

/-- Body of `Redirection::parse` on the character list of the raw descriptor.
The leading digit run is read with `peeking_take_while` (which does not consume
the terminating character) and parsed with `parse::<u32>().unwrap()`, which
panics when the numeric value exceeds `u32::MAX`. -/
def parseChars : List Char → PanicOr (Option Redirection)
  | [] => .ok none
  | c :: cs =>
    if c = '&' then .ok (parseModeTarget .both cs)
    else
      let ds := (c :: cs).takeWhile Char.isDigit
      let after := (c :: cs).drop ds.length
      if ds.length = 0 then .ok (parseModeTarget .stdout after)
      else if digitsToNat ds < 4294967296 then
        if digitsToNat ds = 0 ∨ digitsToNat ds = 1 then .ok (parseModeTarget .stdout after)
        else if digitsToNat ds = 2 then .ok (parseModeTarget .stderr after)
        else .ok none
      else .panicked

/-- `Redirection::parse` from src/redirection.rs. -/
def Redirection.parse (value : String) : PanicOr (Option Redirection) :=
  parseChars value.data

/-- `QuoteKind` from src/main.rs. -/
inductive QuoteKind where
  | single
  | double
  | none
deriving DecidableEq

/-- One call of `<LineTokenIter as Iterator>::next` (src/main.rs lines 49-103):
given the remaining characters, the accumulating token buffer, the current
quote state and the iterator's `redirection` field, return the emitted token
(if any), the remaining characters and the updated `redirection` field, or
`panicked` for the two `panic!("Line ended in a '\\'.")` sites.  The guard
conditions follow the Rust match arms in order.  Recursion is on a fuel
parameter; every recursive call consumes at least one character, so any fuel
of at least `cs.length` makes the fuel-exhaustion branch unreachable. -/
def nextLoop : Nat → List Char → List Char → QuoteKind → Option String →
    PanicOr (Option String × List Char × Option String)
  | _, [], token, _, red =>
    .ok (if token.length > 0 then some (String.mk token) else Option.none, [], red)
  | 0, _ :: _, _, _, _ => .panicked
  | fuel + 1, ch :: rest, token, quote, red =>
      if ch = dquoteChar ∧ quote = .double then nextLoop fuel rest token .none red
      else if ch = dquoteChar ∧ quote = .none then nextLoop fuel rest token .double red
      else if ch = squoteChar ∧ quote = .single then nextLoop fuel rest token .none red
      else if ch = squoteChar ∧ quote = .none then nextLoop fuel rest token .single red
      else if ch = backslashChar ∧ quote = .none then
        match rest with
        | [] => .panicked
        | next :: rest2 => nextLoop fuel rest2 (token ++ [next]) quote red
      else if ch = backslashChar ∧ quote = .double then
        match rest with
        | [] => .panicked
        | next :: rest2 =>
          if next = backslashChar ∨ next = '$' ∨ next = dquoteChar ∨ next = '\n'
          then nextLoop fuel rest2 (token ++ [next]) quote red
          else nextLoop fuel (next :: rest2) (token ++ [backslashChar]) quote red
      else if token.length > 0 ∧ (ch = ' ' ∨ ch = '\n') ∧ quote = .none then
        .ok (some (String.mk token), rest, red)
      else if ch = ' ' ∧ token.length = 0 then nextLoop fuel rest token quote red
      else if ch = '>' ∧ quote = .none then
        if token.length > 0 then
          if token.all Char.isDigit ∨ token = ['&'] then
            .ok (Option.none, [], some (String.mk (token ++ '>' :: rest)))
          else
            .ok (some (String.mk token), [], some (String.mk ('>' :: rest)))
        else
          .ok (Option.none, [], some (String.mk ('>' :: rest)))
      else nextLoop fuel rest (token ++ [ch]) quote red

/-- Exhausting the token iterator, as `InputCommand::parse` does (one `next`
for the command name, `collect` for the rest).  Each call that emits a token
consumes at least one character, so `chars.length + 1` units of fuel always
suffice; the fuel-exhaustion branch is unreachable. -/
def collectLoop : Nat → List Char → Option String → List String →
    PanicOr (List String × Option String)
  | 0, _, _, _ => .panicked
  | fuel + 1, cs, red, acc =>
    match nextLoop cs.length cs [] .none red with
    | .panicked => .panicked
    | .ok (Option.none, _, redF) => .ok (acc.reverse, redF)
    | .ok (some t, cs2, red2) => collectLoop fuel cs2 red2 (t :: acc)

/-- The full tokenization of one input line: the token sequence in input order
plus the iterator's final raw redirection tail. -/
def tokenize (line : String) : PanicOr (List String × Option String) :=
  collectLoop (line.data.length + 1) line.data Option.none []

/-- Rust's `str::parse::<i32>`: optional sign, nonempty ASCII digit run,
value within the i32 range. -/
def parseI32 (s : String) : Option Int :=
  match s.data with
  | [] => Option.none
  | c :: cs =>
    let signed : Int × List Char :=
      if c = '+' then (1, cs) else if c = '-' then (-1, cs) else (1, c :: cs)
    if signed.2.length = 0 then Option.none
    else if signed.2.all Char.isDigit then
      let v : Int := signed.1 * (digitsToNat signed.2 : Int)
      if -2147483648 ≤ v ∧ v ≤ 2147483647 then some v else Option.none
    else Option.none

/-- The error cases produced with `anyhow::bail!` / `?` in `InputCommand::parse`. -/
inductive ParseErr where
  | emptyLine
  | exitIntParse
  | exitTooMany
  | pwdArgs (n : Nat)
  | cdTooMany
deriving DecidableEq

/-- The diagnostic text printed for each parse error by `println!("{:?}", err)`;
the strings are the `bail!` messages from src/main.rs.  The `exit`
integer-parse case renders Rust's `ParseIntError` invalid-digit message; Rust
prints a different message for tokens that overflow i32, a distinction
`parseI32` does not track (no claim asserts the text). -/
def renderErr : ParseErr → String
  | .emptyLine => "Line is empty"
  | .exitIntParse => "invalid digit found in string"
  | .exitTooMany => "Too many arguments (expected 2"
  | .pwdArgs n => "pwd: expected 0 arguments; got " ++ toString n
  | .cdTooMany => "Too many arguments for cd command"

/-- `Command` from src/main.rs. -/
inductive Command where
  | exit (code : Int)
  | echo (args : List String)
  | type (args : List String)
  | pwd
  | cd (path : Option String)
  | notFound (name : String) (args : List String)
deriving DecidableEq

/-- `InputCommand` from src/main.rs. -/
structure InputCommand where
  command : Command
  redirect : Option Redirection
deriving DecidableEq

/-- Outcome of `InputCommand::parse`: a panic escaping from the lexer or the
redirection parser, a `bail!`-style error, or a parsed command. -/
inductive ParseResult where
  | panicked
  | failed (e : ParseErr)
  | parsed (c : InputCommand)
deriving DecidableEq

/-- The `match name.as_ref()` block of `InputCommand::parse`. -/
def buildCommand (name : String) (rest : List String) : Except ParseErr Command :=
  if name = "exit" then
    match rest with
    | [] => .ok (.exit 127)
    | [a] =>
      match parseI32 a with
      | some n => .ok (.exit n)
      | Option.none => .error .exitIntParse
    | _ => .error .exitTooMany
  else if name = "echo" then .ok (.echo rest)
  else if name = "type" then .ok (.type rest)
  else if name = "pwd" then
    if rest.length ≠ 0 then .error (.pwdArgs rest.length) else .ok .pwd
  else if name = "cd" then
    match rest with
    | [] => .ok (.cd Option.none)
    | [p] => .ok (.cd (some p))
    | _ => .error .cdTooMany
  else .ok (.notFound name rest)

/-- `InputCommand::parse` (src/main.rs lines 142-189): tokenize the line, bail
on an empty token sequence, build the command, and only then parse the raw
redirection tail (`tokens.redirection()`), whose u32 overflow panic therefore
fires only on the success path. -/
def parseLine (line : String) : ParseResult :=
  match tokenize line with
  | .panicked => .panicked
  | .ok ([], _) => .failed .emptyLine
  | .ok (name :: rest, rawRed) =>
    match buildCommand name rest with
    | .error e => .failed e
    | .ok cmd =>
      match rawRed with
      | Option.none => .parsed ⟨cmd, Option.none⟩
      | some raw =>
        match Redirection.parse raw with
        | .panicked => .panicked
        | .ok r => .parsed ⟨cmd, r⟩

/-- `CommandWriterTarget` from src/main.rs: which channel a sink is bound to. -/
inductive CommandWriterTarget where
  | stdout
  | stderr
deriving DecidableEq

/-- `CommandWriterTarget::matches_source` (src/main.rs lines 250-256). -/
def CommandWriterTarget.matchesSource (t : CommandWriterTarget) : RedirectionSource → Bool
  | .stdout => t = .stdout
  | .stderr => t = .stderr
  | .both => true

/-- Where a `CommandWriter::write` call lands: the shared redirection file
handle, or the inherited stream of the sink's channel. -/
inductive WriteDest where
  | file
  | inheritOut
  | inheritErr
deriving DecidableEq

/-- The backing target chosen by `<CommandWriter as Write>::write`
(src/main.rs lines 265-275): the shared file handle when a redirection is
present and its source matches the sink's channel, the inherited stream of
that channel otherwise. -/
def CommandWriter.writeDest (red : Option Redirection) (t : CommandWriterTarget) : WriteDest :=
  match red with
  | some r =>
    if t.matchesSource r.source then .file
    else match t with
      | .stdout => .inheritOut
      | .stderr => .inheritErr
  | Option.none =>
    match t with
    | .stdout => .inheritOut
    | .stderr => .inheritErr

/-- Observable io calls of one read-eval iteration: bytes written to the
inherited stdout/stderr, a flush of the inherited stdout, the redirection
file being opened, and bytes written to the redirection file. -/
inductive Ev where
  | outInherit (s : String)
  | errInherit (s : String)
  | flushInherit
  | fileOpen (target : String) (mode : RedirectionMode)
  | fileWrite (s : String)
deriving DecidableEq

/-- Whether an event is a write or flush call whose `io::Result` the source
`.unwrap()`s (every `write!`/`writeln!`/`println!`/`eprintln!`/`flush` in the
loop body).  The file-open is not: its failure is handled by the
`Failed to redirect` branch and is modelled by `ShellEnv.openOk`. -/
def Ev.isWrite : Ev → Bool
  | .outInherit _ => true
  | .errInherit _ => true
  | .flushInherit => true
  | .fileWrite _ => true
  | .fileOpen _ _ => false

/-- How one iteration of the read-eval loop in `main` ends: a panic aborting
the shell process, `process::exit`, or continuing to the next prompt. -/
inductive LoopStep where
  | panicked
  | exited (code : Int)
  | continued
deriving DecidableEq

/-- A write through a `CommandWriter` sink, rendered as an event. -/
def route (red : Option Redirection) (t : CommandWriterTarget) (s : String) : Ev :=
  match CommandWriter.writeDest red t with
  | .file => .fileWrite s
  | .inheritOut => .outInherit s
  | .inheritErr => .errInherit s

/-- Results of the external collaborators `main` consults, fixed for the
duration of one iteration: whether opening the redirection target succeeds,
PATH resolution, the spawned process's captured output (or a spawn failure),
`env::current_dir`, `HOME`, path existence, and whether `env::set_current_dir`
succeeds. -/
structure ShellEnv where
  openOk : Bool
  pathResolve : String → Option String
  execResult : Option (String × String)
  cwd : Except String String
  home : Option String
  pathExists : String → Bool
  setDirOk : String → Bool

/-- Builtin names, from `CommandDiscriminants::builtin_name`. -/
def builtinNames : List String := ["exit", "echo", "type", "pwd", "cd"]

/-- `CommandDiscriminants::is_builtin`. -/
def isBuiltin (name : String) : Bool := builtinNames.contains name

/-- The io calls of the `Command::Echo` arm after the first argument: each
further argument is written prefixed by a single space and followed by the
loop body's `io::stdout().flush()` of the inherited stdout, and a final
newline is written (the base case) once at least one argument exists. -/
def echoRest (red : Option Redirection) : List String → List Ev
  | [] => [route red .stdout "\n"]
  | a :: rest => route red .stdout (" " ++ a) :: .flushInherit :: echoRest red rest

/-- The io calls of the `Command::Echo` arm: nothing at all for an empty
argument list, otherwise the first argument bare then a flush, the rest
space-prefixed each with a flush, then a newline. -/
def echoEvents (red : Option Redirection) : List String → List Ev
  | [] => []
  | a :: rest => route red .stdout a :: .flushInherit :: echoRest red rest

/-- The writes of the `Command::Type` arm, one per name. -/
def typeEvents (env : ShellEnv) (red : Option Redirection) (names : List String) : List Ev :=
  names.map fun name =>
    if isBuiltin name then route red .stdout (name ++ " is a shell builtin\n")
    else
      match env.pathResolve name with
      | some p => route red .stdout (name ++ " is " ++ p ++ "\n")
      | Option.none => route red .stderr (name ++ ": not found\n")

/-- The tail of the `Command::Cd` arm after `~` expansion: existence check,
then `env::set_current_dir(path).unwrap()`, whose failure panics. -/
def cdGo (env : ShellEnv) (red : Option Redirection) (p : String) : List Ev × LoopStep :=
  if env.pathExists p then
    if env.setDirOk p then ([], .continued) else ([], .panicked)
  else ([route red .stderr ("cd: " ++ p ++ ": No such file or directory\n")], .continued)

/-- The `match command.command` block of `main` (src/main.rs lines 344-422):
the write and flush calls each arm makes through the routed sinks, in order,
and how the iteration ends.  `lineTrim` is `input.trim()`, used by the
command-not-found message.  The events are the calls the arm attempts; the
source `.unwrap()`s each call's `io::Result`, so any of them failing panics
the process at that call — that interpretation is applied by `runStep`. -/
def dispatch (env : ShellEnv) (lineTrim : String) (cmd : Command)
    (red : Option Redirection) : List Ev × LoopStep :=
  match cmd with
  | .exit code => ([], .exited code)
  | .echo args => (echoEvents red args, .continued)
  | .type args => (typeEvents env red args, .continued)
  | .pwd =>
    match env.cwd with
    | .ok dir => ([route red .stdout (dir ++ "\n")], .continued)
    | .error e => ([route red .stderr ("pwd: " ++ e ++ "\n")], .continued)
  | .cd Option.none => ([], .continued)
  | .cd (some p) =>
    if p = "~" then
      match env.home with
      | some h => cdGo env red h
      | Option.none => ([route red .stderr "cd: ~: home dir is not available\n"], .continued)
    else cdGo env red p
  | .notFound name _ =>
    match env.pathResolve name with
    | some p =>
      match env.execResult with
      | some oe => ([route red .stdout oe.1, route red .stderr oe.2], .continued)
      | Option.none =>
        ([route red .stderr (p ++ ": Failed to execute command\n")], .continued)
    | Option.none =>
      ([route red .stderr (lineTrim ++ ": command not found\n")], .continued)

/-- One iteration of the read-eval loop in `main` (src/main.rs lines 320-423)
on a line already read: parse, report parse errors and continue; otherwise run
`InputCommand::out` — which first prints `Redirect is not none <target>` with
`println!` to the inherited stdout, then opens the target file, reporting
`Failed to redirect` and continuing on failure — and finally dispatch the
command through the routed sinks.  As in `dispatch`, the trace lists the
write calls the iteration attempts (the diagnostic `println!`s and
`eprintln!` included, which the macros let panic on a failed write); the
panic of a failing call is applied by `runStep`. -/
def shellStep (env : ShellEnv) (line : String) : List Ev × LoopStep :=
  match parseLine line with
  | .panicked => ([], .panicked)
  | .failed e => ([.outInherit (renderErr e ++ "\n")], .continued)
  | .parsed c =>
    match c.redirect with
    | some r =>
      if env.openOk then
        let d := dispatch env line.trim c.command c.redirect
        (.outInherit ("Redirect is not none " ++ r.target ++ "\n")
          :: .fileOpen r.target r.mode :: d.1, d.2)
      else
        ([.outInherit ("Redirect is not none " ++ r.target ++ "\n"),
          .errInherit "Failed to redirect\n"], .continued)
    | Option.none => dispatch env line.trim c.command Option.none

/-- The flags `InputCommand::out` sets on `OpenOptions` (src/main.rs lines
195-200): always `create(true)`, then `write(true)` for Write mode and
`append(true)` for Append mode; `truncate` is never set. -/
structure OpenOpts where
  create : Bool
  write : Bool
  append : Bool
  truncate : Bool
deriving DecidableEq

/-- The `OpenOptions` configuration per redirection mode, from the source. -/
def openOptionsFor : RedirectionMode → OpenOpts
  | .write => ⟨true, true, false, false⟩
  | .append => ⟨true, false, true, false⟩

/-- A file as the operating system sees it: its byte content and the current
file offset of the opened handle.  Bytes are modelled as naturals. -/
structure FileState where
  content : List Nat
  pos : Nat
deriving DecidableEq

/-- POSIX semantics of `OpenOptions::open`: a missing file is created exactly
when `create` is set; existing content is cleared only when `truncate` is set;
the initial offset is 0. -/
def openFile (o : OpenOpts) (existing : Option (List Nat)) : Option FileState :=
  match existing with
  | Option.none => if o.create then some ⟨[], 0⟩ else Option.none
  | some c => some ⟨if o.truncate then [] else c, 0⟩

/-- Overwriting `buf` into `c` at offset `p` (POSIX `write` semantics for a
non-append handle when the write stays within the file). -/
def writeAt (c : List Nat) (p : Nat) (buf : List Nat) : List Nat :=
  c.take p ++ buf ++ c.drop (p + buf.length)

/-- One `write` call on an open handle: append mode writes at end-of-file,
otherwise the buffer overwrites at the current offset, which advances. -/
def fileWriteOp (o : OpenOpts) (st : FileState) (buf : List Nat) : FileState :=
  if o.append then ⟨st.content ++ buf, st.content.length + buf.length⟩
  else ⟨writeAt st.content st.pos buf, st.pos + buf.length⟩

/-- A command's whole sequence of writes to the redirection file. -/
def runWrites (o : OpenOpts) (st : FileState) : List (List Nat) → FileState
  | [] => st
  | b :: bs => runWrites o (fileWriteOp o st b) bs

/-- Total byte count of a sequence of write buffers. -/
def totalLen (bs : List (List Nat)) : Nat := (bs.map List.length).sum

/-- A concrete collaborator environment used by witnesses and
counterexamples: opening the redirection target succeeds, PATH resolution
finds nothing, the working directory is the root, `HOME` is unset, no path
exists, and `set_current_dir` succeeds. -/
def env0 : ShellEnv :=
  ⟨true, fun _ => Option.none, Option.none, .ok "/", Option.none, fun _ => false, fun _ => true⟩

/-- Expected behaviour of an `exit` line per the specification, as a function
of the trailing tokens: no tokens exit with 127, one integer token exits with
that code, one non-integer token is a reported parse error, two or more are a
reported argument-count error. -/
def exitSpec (rest : List String) : List Ev × LoopStep :=
  match rest with
  | [] => ([], .exited 127)
  | [t] =>
    match parseI32 t with
    | some n => ([], .exited n)
    | Option.none => ([Ev.outInherit (renderErr .exitIntParse ++ "\n")], .continued)
  | _ => ([Ev.outInherit (renderErr .exitTooMany ++ "\n")], .continued)

/-- Valid source prefixes of a raw redirection descriptor, per steps 1-2 of
the RedirectionParser algorithm: empty or a digit run of value 0 or 1 for
Stdout, a digit run of value 2 for Stderr, a single `&` for Both. -/
def sourcePrefixOk (pre : List Char) (src : RedirectionSource) : Prop :=
  (pre = [] ∧ src = .stdout) ∨
  (pre = ['&'] ∧ src = .both) ∨
  (pre ≠ [] ∧ pre.all Char.isDigit = true ∧
    ((digitsToNat pre = 0 ∨ digitsToNat pre = 1) ∧ src = .stdout ∨
      (digitsToNat pre = 2 ∧ src = .stderr)))

/-- Relation between the parse outcome of a line and how the loop iteration
for it may end: a panic is never acceptable, and an exit must come from a
parsed `exit` command. -/
def loopOk (pr : ParseResult) : LoopStep → Prop
  | .panicked => False
  | .exited code => ∃ red, pr = .parsed ⟨.exit code, red⟩
  | .continued => True

/-- Replays the io calls of one iteration against an oracle `wf` telling
which call (by its position in the trace) fails.  The source `.unwrap()`s the
`io::Result` of every write and flush, so the first failing one panics: the
result is the list of events actually performed before the panic, and whether
every call succeeded.  No code in the loop branches on a successful write's
value, so the attempted calls before the first failure are exactly those of
the all-succeed trace. -/
def runTrace (wf : Nat → Bool) : Nat → List Ev → List Ev × Bool
  | _, [] => ([], true)
  | i, e :: es =>
    if e.isWrite = true ∧ wf i = true then ([], false)
    else
      let r := runTrace wf (i + 1) es
      (e :: r.1, r.2)

/-- One iteration of the read-eval loop with fallible writes: the attempted
trace of `shellStep` replayed under `wf`.  The first failing write or flush
panics the process there — only the preceding events are performed and the
iteration's own outcome (exit, continue) is never reached; if every call
succeeds the iteration ends as `shellStep` says. -/
def runStep (wf : Nat → Bool) (tr : List Ev × LoopStep) : List Ev × LoopStep :=
  let r := runTrace wf 0 tr.1
  if r.2 = true then (r.1, tr.2) else (r.1, .panicked)

/-- The write oracle under which every write and flush succeeds. -/
def wfNone : Nat → Bool := fun _ => false

/-- The write oracle under which every write and flush fails. -/
def wfAll : Nat → Bool := fun _ => true

theorem takeWhile_append_all {p : Char → Bool} :
    ∀ (l r : List Char), l.all p = true → (l ++ r).takeWhile p = l ++ r.takeWhile p := by
  intro l r h
  induction l with
  | nil => simp
  | cons a l ih =>
    simp only [List.all_cons, Bool.and_eq_true] at h
    simp [List.takeWhile_cons, h.1, ih h.2]

theorem takeWhile_head_false {p : Char → Bool} :
    ∀ (t : List Char), (∀ c, t.head? = some c → p c = false) → t.takeWhile p = [] := by
  intro t h
  cases t with
  | nil => rfl
  | cons c t => simp [List.takeWhile_cons, h c rfl]

theorem parseModeTarget_one (src : RedirectionSource) (t : List Char)
    (h : t.head? ≠ some '>') :
    parseModeTarget src ('>' :: t) = some ⟨src, .write, targetOf (t.drop 1)⟩ := by
  have htw : t.takeWhile (fun c => c == '>') = [] := by
    refine takeWhile_head_false t ?_
    intro c hc
    simp only [beq_eq_false_iff_ne, ne_eq]
    intro hcgt
    exact h (hcgt ▸ hc)
  simp [parseModeTarget, List.takeWhile_cons, htw]

theorem parseModeTarget_two (src : RedirectionSource) (t : List Char)
    (h : t.head? ≠ some '>') :
    parseModeTarget src ('>' :: '>' :: t) = some ⟨src, .append, targetOf (t.drop 1)⟩ := by
  have htw : t.takeWhile (fun c => c == '>') = [] := by
    refine takeWhile_head_false t ?_
    intro c hc
    simp only [beq_eq_false_iff_ne, ne_eq]
    intro hcgt
    exact h (hcgt ▸ hc)
  simp [parseModeTarget, List.takeWhile_cons, htw]

theorem nextLoop_cons (fuel : Nat) (ch : Char) (rest token : List Char) (quote : QuoteKind)
    (red : Option String) :
    nextLoop (fuel + 1) (ch :: rest) token quote red =
      (if ch = dquoteChar ∧ quote = .double then nextLoop fuel rest token .none red
      else if ch = dquoteChar ∧ quote = .none then nextLoop fuel rest token .double red
      else if ch = squoteChar ∧ quote = .single then nextLoop fuel rest token .none red
      else if ch = squoteChar ∧ quote = .none then nextLoop fuel rest token .single red
      else if ch = backslashChar ∧ quote = .none then
        match rest with
        | [] => .panicked
        | next :: rest2 => nextLoop fuel rest2 (token ++ [next]) quote red
      else if ch = backslashChar ∧ quote = .double then
        match rest with
        | [] => .panicked
        | next :: rest2 =>
          if next = backslashChar ∨ next = '$' ∨ next = dquoteChar ∨ next = '\n'
          then nextLoop fuel rest2 (token ++ [next]) quote red
          else nextLoop fuel (next :: rest2) (token ++ [backslashChar]) quote red
      else if token.length > 0 ∧ (ch = ' ' ∨ ch = '\n') ∧ quote = .none then
        .ok (some (String.mk token), rest, red)
      else if ch = ' ' ∧ token.length = 0 then nextLoop fuel rest token quote red
      else if ch = '>' ∧ quote = .none then
        if token.length > 0 then
          if token.all Char.isDigit ∨ token = ['&'] then
            .ok (Option.none, [], some (String.mk (token ++ '>' :: rest)))
          else
            .ok (some (String.mk token), [], some (String.mk ('>' :: rest)))
        else
          .ok (Option.none, [], some (String.mk ('>' :: rest)))
      else nextLoop fuel rest (token ++ [ch]) quote red) := rfl

theorem nextLoop_plain (fuel : Nat) (a : Char) (rest token : List Char) (quote : QuoteKind)
    (red : Option String) (h1 : a ≠ dquoteChar) (h2 : a ≠ squoteChar) (h3 : a ≠ backslashChar)
    (h4 : a ≠ ' ') (h5 : a ≠ '\n') (h6 : a ≠ '>') :
    nextLoop (fuel + 1) (a :: rest) token quote red = nextLoop fuel rest (token ++ [a]) quote red := by
  rw [nextLoop_cons]
  rw [if_neg (fun h => h1 h.1), if_neg (fun h => h1 h.1), if_neg (fun h => h2 h.1),
    if_neg (fun h => h2 h.1), if_neg (fun h => h3 h.1), if_neg (fun h => h3 h.1),
    if_neg (fun h => Or.elim h.2.1 h4 h5), if_neg (fun h => h4 h.1),
    if_neg (fun h => h6 h.1)]

theorem isAlpha_ne_specials (a : Char) (h : a.isAlpha = true) :
    a ≠ dquoteChar ∧ a ≠ squoteChar ∧ a ≠ backslashChar ∧ a ≠ ' ' ∧ a ≠ '\n' ∧ a ≠ '>' := by
  refine ⟨?_, ?_, ?_, ?_, ?_, ?_⟩ <;> intro heq <;> subst heq <;> exact absurd h (by decide)

theorem nextLoop_alpha_push :
    ∀ (pre : List Char) (fuel : Nat) (cs token : List Char) (quote : QuoteKind)
      (red : Option String), pre.all Char.isAlpha = true →
      nextLoop (fuel + pre.length) (pre ++ cs) token quote red
        = nextLoop fuel cs (token ++ pre) quote red := by
  intro pre
  induction pre with
  | nil => intro fuel cs token quote red _; simp
  | cons a pre ih =>
    intro fuel cs token quote red h
    simp only [List.all_cons, Bool.and_eq_true] at h
    obtain ⟨n1, n2, n3, n4, n5, n6⟩ := isAlpha_ne_specials a h.1
    have step := nextLoop_plain (fuel + pre.length) a (pre ++ cs) token quote red n1 n2 n3 n4 n5 n6
    show nextLoop ((fuel + pre.length) + 1) (a :: (pre ++ cs)) token quote red
        = nextLoop fuel cs (token ++ (a :: pre)) quote red
    refine (step.trans (ih fuel cs (token ++ [a]) quote red h.2)).trans ?_
    rw [List.append_assoc]
    rfl

theorem nextLoop_spaces_skip :
    ∀ (k : Nat) (fuel : Nat) (cs : List Char) (quote : QuoteKind) (red : Option String),
      nextLoop (fuel + k) (List.replicate k ' ' ++ cs) [] quote red
        = nextLoop fuel cs [] quote red := by
  intro k
  induction k with
  | zero => intro fuel cs quote red; simp
  | succ k ih =>
    intro fuel cs quote red
    show nextLoop ((fuel + k) + 1) (' ' :: (List.replicate k ' ' ++ cs)) [] quote red
        = nextLoop fuel cs [] quote red
    have hstep : nextLoop ((fuel + k) + 1) (' ' :: (List.replicate k ' ' ++ cs)) [] quote red
        = nextLoop (fuel + k) (List.replicate k ' ' ++ cs) [] quote red := by
      rw [nextLoop_cons]
      rw [if_neg (fun h => absurd h.1 (by decide)), if_neg (fun h => absurd h.1 (by decide)),
        if_neg (fun h => absurd h.1 (by decide)), if_neg (fun h => absurd h.1 (by decide)),
        if_neg (fun h => absurd h.1 (by decide)), if_neg (fun h => absurd h.1 (by decide)),
        if_neg (fun h => absurd h.1 (by decide)), if_pos ⟨rfl, rfl⟩]
    exact hstep.trans (ih fuel cs quote red)

theorem nextLoop_quoted_spaces_push :
    ∀ (k : Nat) (fuel : Nat) (cs token : List Char) (red : Option String), token ≠ [] →
      nextLoop (fuel + k) (List.replicate k ' ' ++ cs) token .double red
        = nextLoop fuel cs (token ++ List.replicate k ' ') .double red := by
  intro k
  induction k with
  | zero => intro fuel cs token red _; simp
  | succ k ih =>
    intro fuel cs token red htok
    have hlen : ¬ token.length = 0 := by simpa [List.length_eq_zero] using htok
    show nextLoop ((fuel + k) + 1) (' ' :: (List.replicate k ' ' ++ cs)) token .double red
        = nextLoop fuel cs (token ++ (' ' :: List.replicate k ' ')) .double red
    have hstep : nextLoop ((fuel + k) + 1) (' ' :: (List.replicate k ' ' ++ cs)) token .double red
        = nextLoop (fuel + k) (List.replicate k ' ' ++ cs) (token ++ [' ']) .double red := by
      rw [nextLoop_cons]
      rw [if_neg (fun h => absurd h.1 (by decide)), if_neg (fun h => absurd h.1 (by decide)),
        if_neg (fun h => absurd h.1 (by decide)), if_neg (fun h => absurd h.1 (by decide)),
        if_neg (fun h => absurd h.1 (by decide)), if_neg (fun h => absurd h.1 (by decide)),
        if_neg (fun h => absurd h.2.2 (by decide)), if_neg (fun h => hlen h.2),
        if_neg (fun h => absurd h.1 (by decide))]
    refine (hstep.trans (ih fuel cs (token ++ [' ']) red (by simp))).trans ?_
    rw [List.append_assoc]
    rfl

theorem collectLoop_stop (fuel : Nat) (cs : List Char) (red : Option String)
    (acc : List String) (cs2 : List Char) (redF : Option String)
    (h : nextLoop cs.length cs [] .none red = .ok (Option.none, cs2, redF)) :
    collectLoop (fuel + 1) cs red acc = .ok (acc.reverse, redF) := by
  simp [collectLoop, h]

theorem collectLoop_emit (fuel : Nat) (cs : List Char) (red : Option String)
    (acc : List String) (t : String) (cs2 : List Char) (red2 : Option String)
    (h : nextLoop cs.length cs [] .none red = .ok (some t, cs2, red2)) :
    collectLoop (fuel + 1) cs red acc = collectLoop fuel cs2 red2 (t :: acc) := by
  simp [collectLoop, h]

theorem collectLoop_panic (fuel : Nat) (cs : List Char) (red : Option String)
    (acc : List String) (h : nextLoop cs.length cs [] .none red = .panicked) :
    collectLoop (fuel + 1) cs red acc = .panicked := by
  simp [collectLoop, h]

theorem parseChars_gt (t : List Char) :
    parseChars ('>' :: t) = .ok (parseModeTarget .stdout ('>' :: t)) := by
  have h1 : ¬ (('>' : Char) = '&') := by decide
  have h2 : Char.isDigit '>' = false := by decide
  simp [parseChars, h1, List.takeWhile_cons, h2]

theorem parseChars_amp (t : List Char) :
    parseChars ('&' :: t) = .ok (parseModeTarget .both t) := by
  simp [parseChars]

theorem isDigit_ne_amp (d : Char) (h : d.isDigit = true) : ¬ (d = '&') := by
  intro heq
  subst heq
  exact absurd h (by decide)

theorem parseChars_digits (ds rest : List Char) (hne : ds ≠ [])
    (hall : ds.all Char.isDigit = true) (hrest : rest.takeWhile Char.isDigit = []) :
    parseChars (ds ++ rest) =
      (if digitsToNat ds < 4294967296 then
        if digitsToNat ds = 0 ∨ digitsToNat ds = 1 then .ok (parseModeTarget .stdout rest)
        else if digitsToNat ds = 2 then .ok (parseModeTarget .stderr rest)
        else .ok none
      else .panicked) := by
  cases ds with
  | nil => exact absurd rfl hne
  | cons d ds =>
    have hd : d.isDigit = true := by
      have := hall
      simp only [List.all_cons, Bool.and_eq_true] at this
      exact this.1

    have hamp : ¬ (d = '&') := isDigit_ne_amp d hd
    have htw : ((d :: ds) ++ rest).takeWhile Char.isDigit = d :: ds := by
      rw [takeWhile_append_all _ _ hall, hrest, List.append_nil]
    have hdrop : ((d :: ds) ++ rest).drop (d :: ds).length = rest := List.drop_left _ _
    rw [List.cons_append] at htw hdrop
    have hlen : (d :: ds).length = ds.length + 1 := rfl
    simp only [List.cons_append, parseChars, htw, hlen, hdrop]
    simp [hamp]

theorem writeAt_length (c b : List Nat) (p : Nat) (h : p + b.length ≤ c.length) :
    (writeAt c p b).length = c.length := by
  simp [writeAt]
  omega

theorem writeAt_drop (c b : List Nat) (p k : Nat) (h : p + b.length ≤ c.length)
    (hk : p + b.length ≤ k) : (writeAt c p b).drop k = c.drop k := by
  have hlt : (c.take p ++ b).length = p + b.length := by
    simp
    omega
  have hsplit : k = (c.take p ++ b).length + (k - (p + b.length)) := by
    rw [hlt]
    omega
  rw [writeAt, hsplit, List.drop_append, List.drop_drop]
  congr 1
  omega

theorem runWrites_frame :
    ∀ (bs : List (List Nat)) (c : List Nat) (p : Nat), p + totalLen bs ≤ c.length →
      (runWrites (openOptionsFor .write) ⟨c, p⟩ bs).content.drop (p + totalLen bs)
          = c.drop (p + totalLen bs) ∧
        (runWrites (openOptionsFor .write) ⟨c, p⟩ bs).content.length = c.length := by
  intro bs
  induction bs with
  | nil => intro c p h; simp [runWrites, totalLen]
  | cons b bs ih =>
    intro c p h
    have htl : totalLen (b :: bs) = b.length + totalLen bs := by simp [totalLen]
    have hble : p + b.length ≤ c.length := by
      rw [htl] at h
      omega
    have hfw : fileWriteOp (openOptionsFor .write) ⟨c, p⟩ b = ⟨writeAt c p b, p + b.length⟩ := by
      simp [fileWriteOp, openOptionsFor]
    have hlen2 : (writeAt c p b).length = c.length := writeAt_length c b p hble
    have ihball : p + b.length + totalLen bs ≤ (writeAt c p b).length := by
      rw [hlen2]
      rw [htl] at h
      omega
    have ih2 := ih (writeAt c p b) (p + b.length) ihball
    have hstep : runWrites (openOptionsFor .write) ⟨c, p⟩ (b :: bs)
        = runWrites (openOptionsFor .write) ⟨writeAt c p b, p + b.length⟩ bs := by
      rw [runWrites, hfw]
    have hidx : p + totalLen (b :: bs) = (p + b.length) + totalLen bs := by
      rw [htl]
      omega
    constructor
    · rw [hstep, hidx, ih2.1]
      exact writeAt_drop c b p _ hble (by omega)
    · rw [hstep, ih2.2, hlen2]

theorem dispatch_exit_or_continue (env : ShellEnv) (lt : String) (cmd : Command)
    (red : Option Redirection) (hset : ∀ p, env.setDirOk p = true) :
    (dispatch env lt cmd red).2 = .continued ∨
      ∃ code, cmd = Command.exit code ∧ (dispatch env lt cmd red).2 = .exited code := by
  cases cmd with
  | exit code => exact Or.inr ⟨code, rfl, rfl⟩
  | echo args => exact Or.inl rfl
  | type args => exact Or.inl rfl
  | pwd =>
    left
    cases hc : env.cwd <;> simp [dispatch, hc]
  | cd po =>
    left
    have hcd : ∀ q, (cdGo env red q).2 = .continued := by
      intro q
      by_cases hex : env.pathExists q
      · simp [cdGo, hex, hset q]
      · simp [cdGo, hex]
    cases po with
    | none => rfl
    | some p =>
      by_cases hp : p = "~"
      · cases hh : env.home <;> simp [dispatch, hp, hh, hcd]
      · simp [dispatch, hp, hcd]
  | notFound name args =>
    left
    cases hr : env.pathResolve name with
    | none => simp [dispatch, hr]
    | some pth => cases he : env.execResult <;> simp [dispatch, hr, he]

theorem nextLoop_open_dquote (fuel : Nat) (rest token : List Char) (red : Option String) :
    nextLoop (fuel + 1) (dquoteChar :: rest) token .none red
      = nextLoop fuel rest token .double red := rfl

theorem nextLoop_close_dquote (fuel : Nat) (rest token : List Char) (red : Option String) :
    nextLoop (fuel + 1) (dquoteChar :: rest) token .double red
      = nextLoop fuel rest token .none red := rfl

theorem nextLoop_nil (fuel : Nat) (token : List Char) (quote : QuoteKind) (red : Option String) :
    nextLoop fuel [] token quote red
      = .ok (if token.length > 0 then some (String.mk token) else Option.none, [], red) := by
  cases fuel <;> rfl

theorem nextLoop_nil_emit (fuel : Nat) (token : List Char) (quote : QuoteKind)
    (red : Option String) (h : token ≠ []) :
    nextLoop fuel [] token quote red = .ok (some (String.mk token), [], red) := by
  rw [nextLoop_nil, if_pos]
  simpa [List.length_pos] using h

theorem nextLoop_spaces_skip_len (k : Nat) (cs : List Char) (quote : QuoteKind)
    (red : Option String) :
    nextLoop (List.replicate k ' ' ++ cs).length (List.replicate k ' ' ++ cs) [] quote red
      = nextLoop cs.length cs [] quote red := by
  have h : (List.replicate k ' ' ++ cs).length = cs.length + k := by
    rw [List.length_append, List.length_replicate, Nat.add_comm]
  rw [h]
  exact nextLoop_spaces_skip k cs.length cs quote red

theorem nextLoop_quoted_push_len (k : Nat) (cs token : List Char) (red : Option String)
    (htok : token ≠ []) :
    nextLoop (List.replicate k ' ' ++ cs).length (List.replicate k ' ' ++ cs) token .double red
      = nextLoop cs.length cs (token ++ List.replicate k ' ') .double red := by
  have h : (List.replicate k ' ' ++ cs).length = cs.length + k := by
    rw [List.length_append, List.length_replicate, Nat.add_comm]
  rw [h]
  exact nextLoop_quoted_spaces_push k cs.length cs token red htok

theorem tokenize_single (cs : List Char) (t : String) (red : Option String) (hne : cs ≠ [])
    (h : nextLoop cs.length cs [] .none Option.none = .ok (some t, [], red)) :
    tokenize (String.mk cs) = .ok ([t], red) := by
  show collectLoop (cs.length + 1) cs Option.none [] = _
  rw [collectLoop_emit _ _ _ _ _ _ _ h]
  obtain ⟨n, hn⟩ : ∃ n, cs.length = n + 1 := by
    cases cs with
    | nil => exact absurd rfl hne
    | cons a l => exact ⟨l.length, rfl⟩
  rw [hn]
  exact collectLoop_stop n [] red [t] [] red rfl

theorem runTrace_all_ok (wf : Nat → Bool) (hwf : ∀ i, wf i = false) :
    ∀ (es : List Ev) (n : Nat), runTrace wf n es = (es, true) := by
  intro es
  induction es with
  | nil => intro n; rfl
  | cons e es ih =>
    intro n
    have hc : ¬ (e.isWrite = true ∧ wf n = true) := by
      intro h
      rw [hwf n] at h
      exact absurd h.2 (by decide)
    simp [runTrace, hc, ih (n + 1)]

theorem runStep_all_ok (wf : Nat → Bool) (hwf : ∀ i, wf i = false) (tr : List Ev × LoopStep) :
    runStep wf tr = tr := by
  simp [runStep, runTrace_all_ok wf hwf tr.1]

theorem runTrace_fail (wf : Nat → Bool) :
    ∀ (es : List Ev) (n i : Nat) (e : Ev), es.get? i = some e → e.isWrite = true →
      wf (n + i) = true → (runTrace wf n es).2 = false := by
  intro es
  induction es with
  | nil =>
    intro n i e hg _ _
    simp at hg
  | cons a es ih =>
    intro n i e hg hw hf
    by_cases hc : a.isWrite = true ∧ wf n = true
    · simp [runTrace, hc]
    · cases i with
      | zero =>
        have he : a = e := Option.some.inj hg
        subst he
        exact absurd ⟨hw, hf⟩ hc
      | succ j =>
        have hg2 : es.get? j = some e := hg
        have hf2 : wf ((n + 1) + j) = true := by
          have harr : (n + 1) + j = n + (j + 1) := by omega
          rw [harr]
          exact hf
        simp [runTrace, hc, ih (n + 1) j e hg2 hw hf2]

theorem runStep_fail (wf : Nat → Bool) (tr : List Ev × LoopStep) (i : Nat) (e : Ev)
    (hg : tr.1.get? i = some e) (hw : e.isWrite = true) (hf : wf i = true) :
    (runStep wf tr).2 = .panicked := by
  have h := runTrace_fail wf tr.1 0 i e hg hw (by simpa using hf)
  simp [runStep, h]

theorem shellStep_loopOk (env : ShellEnv) (line : String)
    (hnp : parseLine line ≠ .panicked) (hset : ∀ p, env.setDirOk p = true) :
    loopOk (parseLine line) (shellStep env line).2 := by
  cases hp : parseLine line with
  | panicked => exact absurd hp hnp
  | failed e => simp [shellStep, hp, loopOk]
  | parsed c =>
    obtain ⟨cmd, redd⟩ := c
    cases redd with
    | none =>
      rcases dispatch_exit_or_continue env line.trim cmd Option.none hset with
        hcont | ⟨code, hcmd, hex⟩
      · simp [shellStep, hp, hcont, loopOk]
      · have hst : (shellStep env line).2 = .exited code := by simp [shellStep, hp, hex]
        rw [hst]
        exact ⟨Option.none, by rw [hcmd]⟩
    | some r =>
      cases ho : env.openOk with
      | false => simp [shellStep, hp, ho, loopOk]
      | true =>
        rcases dispatch_exit_or_continue env line.trim cmd (some r) hset with
          hcont | ⟨code, hcmd, hex⟩
        · simp [shellStep, hp, ho, hcont, loopOk]
        · have hst : (shellStep env line).2 = .exited code := by simp [shellStep, hp, ho, hex]
          rw [hst]
          exact ⟨some r, by rw [hcmd]⟩

/-- Claim C2, counterexample: the claim predicts that `parse ">out.txt"`
yields target `"out.txt"`, but the `take_while` over the `>` run consumes the
`o`, so the target is `"ut.txt"`. -/
theorem c2_counterexample :
    Redirection.parse ">out.txt" = .ok (some ⟨.stdout, .write, "ut.txt"⟩) ∧
      ("ut.txt" : String) ≠ "out.txt" := by decide

/-- Claim C2 (corrected): for every raw tail accepted through step 3 (a valid
source prefix, then one or two `>`), the character that terminates the `>` run
is consumed and discarded; the target is then the maximal non-whitespace run
after skipping whitespace of what remains, i.e. of the tail dropped by one
character after the `>` run. -/
theorem c2_amended_target_after_gt (pre : List Char) (src : RedirectionSource) (t : List Char)
    (hpre : sourcePrefixOk pre src) (ht : t.head? ≠ some '>') :
    Redirection.parse (String.mk (pre ++ '>' :: t))
        = .ok (some ⟨src, .write, targetOf (t.drop 1)⟩) ∧
      Redirection.parse (String.mk (pre ++ '>' :: '>' :: t))
        = .ok (some ⟨src, .append, targetOf (t.drop 1)⟩) := by
  have hone := parseModeTarget_one src t ht
  have htwo := parseModeTarget_two src t ht
  have hgtd : ('>' :: t).takeWhile Char.isDigit = [] := by
    refine takeWhile_head_false _ ?_
    intro c hc
    have hcc : '>' = c := Option.some.inj hc
    subst hcc
    decide
  have hgtd2 : ('>' :: '>' :: t).takeWhile Char.isDigit = [] := by
    refine takeWhile_head_false _ ?_
    intro c hc
    have hcc : '>' = c := Option.some.inj hc
    subst hcc
    decide
  rcases hpre with ⟨rfl, rfl⟩ | ⟨rfl, rfl⟩ | ⟨hne, hall, hsrc⟩
  · constructor
    · show parseChars ('>' :: t) = _
      rw [parseChars_gt, hone]
    · show parseChars ('>' :: '>' :: t) = _
      rw [parseChars_gt ('>' :: t), htwo]
  · constructor
    · show parseChars ('&' :: '>' :: t) = _
      rw [parseChars_amp, hone]
    · show parseChars ('&' :: '>' :: '>' :: t) = _
      rw [parseChars_amp, htwo]
  · have hd1 := parseChars_digits pre ('>' :: t) hne hall hgtd
    have hd2 := parseChars_digits pre ('>' :: '>' :: t) hne hall hgtd2
    rcases hsrc with ⟨h01, rfl⟩ | ⟨h2v, rfl⟩
    · have hlt : digitsToNat pre < 4294967296 := by rcases h01 with h | h <;> rw [h] <;> omega
      constructor
      · show parseChars (pre ++ '>' :: t) = _
        rw [hd1, if_pos hlt, if_pos h01, hone]
      · show parseChars (pre ++ '>' :: '>' :: t) = _
        rw [hd2, if_pos hlt, if_pos h01, htwo]
    · have hlt : digitsToNat pre < 4294967296 := by rw [h2v]; omega
      have hn01 : ¬ (digitsToNat pre = 0 ∨ digitsToNat pre = 1) := by rw [h2v]; decide
      constructor
      · show parseChars (pre ++ '>' :: t) = _
        rw [hd1, if_pos hlt, if_neg hn01, if_pos h2v, hone]
      · show parseChars (pre ++ '>' :: '>' :: t) = _
        rw [hd2, if_pos hlt, if_neg hn01, if_pos h2v, htwo]

/-- Claim C2, witness: the amended claim applied to the empty prefix and the
tail "out.txt". -/
theorem c2_witness :
    Redirection.parse (String.mk ([] ++ '>' :: "out.txt".data))
        = .ok (some ⟨.stdout, .write, targetOf ("out.txt".data.drop 1)⟩) ∧
      Redirection.parse (String.mk ([] ++ '>' :: '>' :: "out.txt".data))
        = .ok (some ⟨.stdout, .append, targetOf ("out.txt".data.drop 1)⟩) :=
  c2_amended_target_after_gt [] .stdout "out.txt".data (Or.inl ⟨rfl, rfl⟩) (by decide)

/-- Claim C4, counterexample: a digit run whose value exceeds `u32::MAX`
panics inside `parse::<u32>().unwrap()` instead of returning. -/
theorem c4_counterexample : Redirection.parse "4294967296>x" = .panicked := by decide

/-- Claim C4 (corrected): a raw descriptor starting with a digit run (hence
not `&`) maps value 0 or 1 to source Stdout, 2 to Stderr, and any other value
that fits in u32 to absent — but a run whose value is at least 2^32 panics
rather than returning. -/
theorem c4_amended_digit_fd (ds rest : List Char) (h1 : ds ≠ [])
    (h2 : ds.all Char.isDigit = true) (h3 : rest.takeWhile Char.isDigit = []) :
    (digitsToNat ds < 4294967296 →
      Redirection.parse (String.mk (ds ++ rest)) =
        .ok (if digitsToNat ds = 0 ∨ digitsToNat ds = 1 then parseModeTarget .stdout rest
          else if digitsToNat ds = 2 then parseModeTarget .stderr rest
          else Option.none)) ∧
    (4294967296 ≤ digitsToNat ds →
      Redirection.parse (String.mk (ds ++ rest)) = .panicked) := by
  have hd := parseChars_digits ds rest h1 h2 h3
  constructor
  · intro hlt
    show parseChars (ds ++ rest) = _
    rw [hd, if_pos hlt]
    by_cases hA : digitsToNat ds = 0 ∨ digitsToNat ds = 1
    · rw [if_pos hA, if_pos hA]
    · by_cases hB : digitsToNat ds = 2
      · rw [if_neg hA, if_pos hB, if_neg hA, if_pos hB]
      · rw [if_neg hA, if_neg hB, if_neg hA, if_neg hB]
  · intro hge
    show parseChars (ds ++ rest) = _
    rw [hd, if_neg (by omega)]

/-- Claim C4, witness: the amended claim applied to the descriptor "2>x". -/
theorem c4_witness :
    ("2".data ≠ ([] : List Char)) ∧
      Redirection.parse (String.mk ("2".data ++ ">x".data))
        = .ok (if digitsToNat "2".data = 0 ∨ digitsToNat "2".data = 1
            then parseModeTarget .stdout ">x".data
            else if digitsToNat "2".data = 2 then parseModeTarget .stderr ">x".data
            else Option.none) :=
  ⟨by decide,
    (c4_amended_digit_fd "2".data ">x".data (by decide) (by decide) (by decide)).1 (by decide)⟩

/-- Claim C5, counterexample: the bare newline line does not lex to an empty
token sequence — the newline is pushed into the token buffer (no match arm
skips a newline with an empty buffer) and the token "\n" is emitted. -/
theorem c5_counterexample :
    tokenize "\n" = .ok (["\n"], Option.none) ∧ (["\n"] : List String) ≠ [] := by decide

/-- Claim C5 (corrected): for every input line consisting only of spaces,
tokenize emits no tokens, and the shell reports the `Line is empty` diagnostic
and continues; newlines, however, are appended to the empty token buffer
rather than skipped. -/
theorem c5_amended_spaces_only (k : Nat) (env : ShellEnv) :
    tokenize (String.mk (List.replicate k ' ')) = .ok ([], Option.none) ∧
      shellStep env (String.mk (List.replicate k ' '))
        = ([Ev.outInherit (renderErr .emptyLine ++ "\n")], .continued) := by
  have hnext : nextLoop (List.replicate k ' ').length (List.replicate k ' ') [] .none Option.none
      = .ok (Option.none, [], Option.none) := by
    have h := nextLoop_spaces_skip_len k [] .none Option.none
    rw [List.append_nil] at h
    rw [h]
    rfl
  have htok : tokenize (String.mk (List.replicate k ' ')) = .ok ([], Option.none) := by
    show collectLoop ((List.replicate k ' ').length + 1) (List.replicate k ' ') Option.none [] = _
    exact collectLoop_stop _ _ _ _ _ _ hnext
  have hpl : parseLine (String.mk (List.replicate k ' ')) = .failed .emptyLine := by
    simp [parseLine, htok]
  exact ⟨htok, by simp [shellStep, hpl]⟩

/-- Claim C3, counterexample: a double-quoted leading space is dropped, not
preserved — tokenizing the line `" a"` (double quotes around a space and `a`)
yields the token "a", which does not begin with a space. -/
theorem c3_counterexample :
    tokenize (String.mk [dquoteChar, ' ', 'a', dquoteChar]) = .ok (["a"], Option.none) ∧
      ("a" : String) ≠ " a" := by decide

/-- Claim C3 (corrected): a space read in quoted state is appended to the
current token only when the token buffer is already non-empty; with an empty
buffer it is skipped (in any quote state), so quoted leading spaces are
dropped while quoted interior spaces are preserved. -/
theorem c3_amended_quoted_space (k : Nat) :
    tokenize (String.mk (dquoteChar :: (List.replicate k ' ' ++ ['a', dquoteChar])))
        = .ok (["a"], Option.none) ∧
      tokenize (String.mk (dquoteChar :: 'a' :: (List.replicate k ' ' ++ ['b', dquoteChar])))
        = .ok ([String.mk ('a' :: (List.replicate k ' ' ++ ['b']))], Option.none) ∧
      tokenize (String.mk [squoteChar, ' ', 'a', squoteChar]) = .ok (["a"], Option.none) := by
  have tail : ∀ T : List Char, nextLoop 2 ['b', dquoteChar] ('a' :: T) .double Option.none
      = .ok (some (String.mk (('a' :: T) ++ ['b'])), [], Option.none) := by
    intro T
    rw [show (2 : Nat) = 1 + 1 from rfl]
    rw [nextLoop_plain 1 'b' [dquoteChar] ('a' :: T) .double Option.none
      (by decide) (by decide) (by decide) (by decide) (by decide) (by decide)]
    rw [nextLoop_close_dquote]
    exact nextLoop_nil_emit 0 _ .none Option.none (by simp)
  refine ⟨?_, ?_, by decide⟩
  · apply tokenize_single _ _ _ (by simp)
    show nextLoop ((List.replicate k ' ' ++ ['a', dquoteChar]).length + 1)
        (dquoteChar :: (List.replicate k ' ' ++ ['a', dquoteChar])) [] .none Option.none
      = .ok (some "a", [], Option.none)
    rw [nextLoop_open_dquote, nextLoop_spaces_skip_len]
    rfl
  · apply tokenize_single _ _ _ (by simp)
    show nextLoop (('a' :: (List.replicate k ' ' ++ ['b', dquoteChar])).length + 1)
        (dquoteChar :: 'a' :: (List.replicate k ' ' ++ ['b', dquoteChar])) [] .none Option.none
      = .ok (some (String.mk ('a' :: (List.replicate k ' ' ++ ['b']))), [], Option.none)
    rw [nextLoop_open_dquote]
    show nextLoop ((List.replicate k ' ' ++ ['b', dquoteChar]).length + 1)
        ('a' :: (List.replicate k ' ' ++ ['b', dquoteChar])) [] .double Option.none = _
    rw [nextLoop_plain _ 'a' _ [] .double Option.none
      (by decide) (by decide) (by decide) (by decide) (by decide) (by decide)]
    show nextLoop (List.replicate k ' ' ++ ['b', dquoteChar]).length
        (List.replicate k ' ' ++ ['b', dquoteChar]) ['a'] .double Option.none = _
    rw [nextLoop_quoted_push_len k ['b', dquoteChar] ['a'] Option.none (by simp)]
    show nextLoop 2 ['b', dquoteChar] ('a' :: List.replicate k ' ') .double Option.none = _
    rw [tail (List.replicate k ' ')]
    rfl

/-- Claim C6, counterexample: on a line that is a single unquoted backslash,
the loop iteration does not continue — the process panics. -/
theorem c6_counterexample :
    shellStep env0 (String.mk [backslashChar]) = ([], .panicked) := by decide

/-- Claim C6 (corrected): a line ending immediately after a backslash read in
Unquoted state (and likewise in DoubleQuoted state) makes tokenize panic
(`panic!("Line ended in a '\\'.")`); the panic terminates the shell process
rather than being reported with the loop continuing. -/
theorem c6_amended_backslash_panics (pre : List Char) (env : ShellEnv)
    (hall : pre.all Char.isAlpha = true) :
    tokenize (String.mk (pre ++ [backslashChar])) = .panicked ∧
      tokenize (String.mk (dquoteChar :: (pre ++ [backslashChar]))) = .panicked ∧
      (shellStep env (String.mk (pre ++ [backslashChar]))).2 = .panicked := by
  have hlen : (pre ++ [backslashChar]).length = 1 + pre.length := by
    rw [List.length_append, Nat.add_comm]
    rfl
  have h1 : nextLoop (pre ++ [backslashChar]).length (pre ++ [backslashChar]) [] .none
      Option.none = .panicked := by
    rw [hlen, nextLoop_alpha_push pre 1 [backslashChar] [] .none Option.none hall]
    rfl
  have htok1 : tokenize (String.mk (pre ++ [backslashChar])) = .panicked := by
    show collectLoop ((pre ++ [backslashChar]).length + 1) (pre ++ [backslashChar])
      Option.none [] = _
    exact collectLoop_panic _ _ _ _ h1
  have h2 : nextLoop (dquoteChar :: (pre ++ [backslashChar])).length
      (dquoteChar :: (pre ++ [backslashChar])) [] .none Option.none = .panicked := by
    show nextLoop ((pre ++ [backslashChar]).length + 1) (dquoteChar :: (pre ++ [backslashChar]))
      [] .none Option.none = _
    rw [nextLoop_open_dquote, hlen,
      nextLoop_alpha_push pre 1 [backslashChar] [] .double Option.none hall]
    rfl
  have htok2 : tokenize (String.mk (dquoteChar :: (pre ++ [backslashChar]))) = .panicked := by
    show collectLoop ((dquoteChar :: (pre ++ [backslashChar])).length + 1)
      (dquoteChar :: (pre ++ [backslashChar])) Option.none [] = _
    exact collectLoop_panic _ _ _ _ h2
  have hpl : parseLine (String.mk (pre ++ [backslashChar])) = .panicked := by
    simp [parseLine, htok1]
  exact ⟨htok1, htok2, by simp [shellStep, hpl]⟩

/-- Claim C6, witness: the amended claim applied to the line `ab\` and the
concrete environment. -/
theorem c6_witness :
    (['a', 'b'].all Char.isAlpha = true) ∧
      (tokenize (String.mk (['a', 'b'] ++ [backslashChar])) = .panicked ∧
        tokenize (String.mk (dquoteChar :: (['a', 'b'] ++ [backslashChar]))) = .panicked ∧
        (shellStep env0 (String.mk (['a', 'b'] ++ [backslashChar]))).2 = .panicked) :=
  ⟨by decide, c6_amended_backslash_panics ['a', 'b'] env0 (by decide)⟩

/-- Claim C1, counterexample: a lexer error on a trailing backslash (here in
DoubleQuoted state) terminates the shell process via a panic, so a
per-command error can end more than the current iteration. -/
theorem c1_counterexample :
    shellStep env0 (String.mk [dquoteChar, backslashChar]) = ([], .panicked) := by decide

/-- Claim C1 (corrected): per-command errors can terminate the shell process.
Parsing panics on a trailing backslash and on a u32 overflow in the
redirection descriptor; every write or flush of a dispatch arm (the
diagnostics' `println!`/`eprintln!` included) has its `io::Result` unwrapped,
so any of them failing panics at that call, as does a `set_current_dir`
failure.  But for every line whose parsing does not panic, in an environment
where `set_current_dir` succeeds and every attempted write succeeds, the
iteration never panics and ends in an exit only for a parsed `exit` command —
all other per-command failures continue to the next prompt. -/
theorem c1_amended_loop_no_panic (env : ShellEnv) (line : String) (wf : Nat → Bool)
    (hnp : parseLine line ≠ .panicked) (hset : ∀ p, env.setDirOk p = true) :
    ((∀ i, wf i = false) → runStep wf (shellStep env line) = shellStep env line ∧
      loopOk (parseLine line) ((runStep wf (shellStep env line)).2)) ∧
    (∀ i e, (shellStep env line).1.get? i = some e → e.isWrite = true → wf i = true →
      (runStep wf (shellStep env line)).2 = .panicked) := by
  constructor
  · intro hwf
    have hid := runStep_all_ok wf hwf (shellStep env line)
    refine ⟨hid, ?_⟩
    rw [hid]
    exact shellStep_loopOk env line hnp hset
  · intro i e hg hw hf
    exact runStep_fail wf (shellStep env line) i e hg hw hf

/-- Claim C1, witness: the amended claim applied to the line `exit 5` under
the all-writes-succeed oracle, and to the line `echo hi` whose first write
fails under the all-writes-fail oracle. -/
theorem c1_witness :
    (parseLine "exit 5\n" ≠ .panicked) ∧
      runStep wfNone (shellStep env0 "exit 5\n") = shellStep env0 "exit 5\n" ∧
      loopOk (parseLine "exit 5\n") ((runStep wfNone (shellStep env0 "exit 5\n")).2) ∧
      (runStep wfAll (shellStep env0 "echo hi\n")).2 = .panicked := by
  have h1 := c1_amended_loop_no_panic env0 "exit 5\n" wfNone (by decide) (fun _ => rfl)
  have h2 := c1_amended_loop_no_panic env0 "echo hi\n" wfAll (by decide) (fun _ => rfl)
  have ha := h1.1 (fun _ => rfl)
  exact ⟨by decide, ha.1, ha.2, h2.2 0 (Ev.outInherit "hi") (by decide) rfl rfl⟩

/-- Claim C7 (confirmed): a sink writes to the shared redirection file exactly
when a descriptor is present and its source matches the sink's channel
(Stdout only the stdout sink, Stderr only the stderr sink, Both either);
otherwise it writes to the inherited stream of its channel, and with source
Both identical bytes route to the same file event through either sink. -/
theorem c7_router_matches (m : RedirectionMode) (tg s : String) :
    CommandWriter.writeDest Option.none .stdout = .inheritOut ∧
    CommandWriter.writeDest Option.none .stderr = .inheritErr ∧
    CommandWriter.writeDest (some ⟨.stdout, m, tg⟩) .stdout = .file ∧
    CommandWriter.writeDest (some ⟨.stdout, m, tg⟩) .stderr = .inheritErr ∧
    CommandWriter.writeDest (some ⟨.stderr, m, tg⟩) .stderr = .file ∧
    CommandWriter.writeDest (some ⟨.stderr, m, tg⟩) .stdout = .inheritOut ∧
    CommandWriter.writeDest (some ⟨.both, m, tg⟩) .stdout = .file ∧
    CommandWriter.writeDest (some ⟨.both, m, tg⟩) .stderr = .file ∧
    route (some ⟨.both, m, tg⟩) .stdout s = Ev.fileWrite s ∧
    route (some ⟨.both, m, tg⟩) .stderr s = Ev.fileWrite s := by
  exact ⟨rfl, rfl, rfl, rfl, rfl, rfl, rfl, rfl, rfl, rfl⟩

/-- Claim C8 (confirmed): a parsed line whose first token is `exit` and that
carries no redirection tail behaves per the specification: no trailing token
exits with 127, one integer token exits with that code, one non-integer token
is a reported parse error without exiting, and two or more trailing tokens are
a reported argument-count error without exiting. -/
theorem c8_exit_dispatch (line : String) (env : ShellEnv) (rest : List String)
    (h : tokenize line = .ok ("exit" :: rest, Option.none)) :
    shellStep env line = exitSpec rest := by
  cases rest with
  | nil =>
    have hbc : buildCommand "exit" [] = .ok (.exit 127) := rfl
    have hpl : parseLine line = .parsed ⟨.exit 127, Option.none⟩ := by
      simp [parseLine, h, hbc]
    have hdp : dispatch env line.trim (.exit 127) Option.none = ([], .exited 127) := rfl
    simp [shellStep, hpl, hdp, exitSpec]
  | cons t rest2 =>
    cases rest2 with
    | nil =>
      have hbc : buildCommand "exit" [t] =
          (match parseI32 t with
            | some n => .ok (.exit n)
            | Option.none => .error .exitIntParse) := rfl
      cases hpi : parseI32 t with
      | none =>
        have hpl : parseLine line = .failed .exitIntParse := by
          simp [parseLine, h, hbc, hpi]
        simp [shellStep, hpl, exitSpec, hpi]
      | some n =>
        have hpl : parseLine line = .parsed ⟨.exit n, Option.none⟩ := by
          simp [parseLine, h, hbc, hpi]
        have hdp : dispatch env line.trim (.exit n) Option.none = ([], .exited n) := rfl
        simp [shellStep, hpl, hdp, exitSpec, hpi]
    | cons t2 rest3 =>
      have hbc : buildCommand "exit" (t :: t2 :: rest3) = .error .exitTooMany := rfl
      have hpl : parseLine line = .failed .exitTooMany := by
        simp [parseLine, h, hbc]
      simp [shellStep, hpl, exitSpec]

/-- Claim C8, witness: the theorem applied to the lines `exit`, `exit 3`,
`exit abc` and `exit 1 2`. -/
theorem c8_witness :
    (tokenize "exit 3\n" = .ok (["exit", "3"], Option.none)) ∧
      shellStep env0 "exit 3\n" = exitSpec ["3"] ∧
      shellStep env0 "exit\n" = exitSpec [] ∧
      shellStep env0 "exit abc\n" = exitSpec ["abc"] ∧
      shellStep env0 "exit 1 2\n" = exitSpec ["1", "2"] :=
  ⟨by decide, c8_exit_dispatch "exit 3\n" env0 ["3"] (by decide),
    c8_exit_dispatch "exit\n" env0 [] (by decide),
    c8_exit_dispatch "exit abc\n" env0 ["abc"] (by decide),
    c8_exit_dispatch "exit 1 2\n" env0 ["1", "2"] (by decide)⟩

/-- Claim C9 (confirmed): for every parsed line carrying a redirection
descriptor, the iteration's very first observable event is the diagnostic
`Redirect is not none <target>` written to the inherited stdout, followed by
the opening of the target file — hence before the target is opened and before
the command produces any output, and never into the redirection file. -/
theorem c9_redirect_diag_first (env : ShellEnv) (line : String) (c : Command) (r : Redirection)
    (hp : parseLine line = .parsed ⟨c, some r⟩) (ho : env.openOk = true) :
    (shellStep env line).1.take 2 =
      [Ev.outInherit ("Redirect is not none " ++ r.target ++ "\n"),
        Ev.fileOpen r.target r.mode] := by
  simp [shellStep, hp, ho]

/-- Claim C9, witness: the theorem applied to the line `echo hi > f`. -/
theorem c9_witness :
    (parseLine "echo hi > f\n" = .parsed ⟨.echo ["hi"], some ⟨.stdout, .write, "f"⟩⟩) ∧
      (shellStep env0 "echo hi > f\n").1.take 2 =
        [Ev.outInherit ("Redirect is not none " ++ "f" ++ "\n"),
          Ev.fileOpen "f" RedirectionMode.write] :=
  ⟨by decide,
    c9_redirect_diag_first env0 "echo hi > f\n" (.echo ["hi"]) ⟨.stdout, .write, "f"⟩
      (by decide) rfl⟩

/-- Claim C10 (confirmed): Write-mode redirection opens the target
create-if-absent and without truncation, so after any sequence of writes (from
offset 0) totalling at most the pre-existing length, the bytes beyond the
overwritten region are unchanged. -/
theorem c10_write_mode_preserves_tail (existing : List Nat) (bufs : List (List Nat))
    (h : totalLen bufs ≤ existing.length) :
    (openOptionsFor .write).truncate = false ∧
      (openOptionsFor .write).create = true ∧
      openFile (openOptionsFor .write) (some existing) = some ⟨existing, 0⟩ ∧
      (runWrites (openOptionsFor .write) ⟨existing, 0⟩ bufs).content.drop (totalLen bufs)
        = existing.drop (totalLen bufs) := by
  refine ⟨rfl, rfl, by simp [openFile, openOptionsFor], ?_⟩
  have hf := (runWrites_frame bufs existing 0 (by omega)).1
  simpa using hf

/-- Claim C10, witness: the theorem applied to a four-byte file and two
one-byte writes. -/
theorem c10_witness :
    totalLen [[9], [8]] ≤ ([1, 2, 3, 4] : List Nat).length ∧
      (runWrites (openOptionsFor .write) ⟨[1, 2, 3, 4], 0⟩ [[9], [8]]).content.drop
          (totalLen [[9], [8]])
        = ([1, 2, 3, 4] : List Nat).drop (totalLen [[9], [8]]) :=
  ⟨by decide, (c10_write_mode_preserves_tail [1, 2, 3, 4] [[9], [8]] (by decide)).2.2.2⟩

end Shell
